import Mathlib

set_option maxRecDepth 10000

/-!
Verification of the holyBPF compiler/VM core: a shallow embedding of the
instruction model (`src/pible/codegen.rs`), the bytecode virtual machine
(`src/pible/bpf_vm.rs`), the platform validator (`src/pible/solana_bpf.rs`)
and the code generator (`src/pible/codegen.rs`), together with theorems
settling the specification's testable properties.

Machine integers are modelled as `Nat`/`Int` with explicit two's-complement
wrapping where the Rust source can overflow; the wrapping matches Rust's
release-mode semantics (`as` casts and arithmetic wrap).  Fallible paths are
modelled with explicit result types; a Rust panic (index out of bounds,
overflow of a bounds check) is a distinguished outcome.
-/

/-- Two's-complement wrap of an integer into the `i32` range, as Rust
release-mode arithmetic and `as i32` casts behave. -/
def wrapI32 (x : Int) : Int := (x + 2147483648) % 4294967296 - 2147483648

/-- Two's-complement wrap of an integer into the `i64` range. -/
def wrapI64 (x : Int) : Int :=
  (x + 9223372036854775808) % 18446744073709551616 - 9223372036854775808

/-- Reinterpretation of a signed machine value as a `usize` (64-bit),
as Rust `as usize` behaves on `i16`/`i32`/`i64` values. -/
def toUsize (x : Int) : Nat := (x % 18446744073709551616).toNat

/-- Truncating cast of an `i64` value to `i32`, as Rust `as i32` behaves. -/
def toI32 (x : Int) : Int := wrapI32 x

/-- Bit pattern of a signed value reinterpreted as `u32` (Rust `as u32`). -/
def toU32 (x : Int) : Nat := (x % 4294967296).toNat

/-- Bit pattern of a signed value reinterpreted as `u16` (Rust `as u16`). -/
def toU16 (x : Int) : Nat := (x % 65536).toNat

/-- Bit pattern of a signed value reinterpreted as `u8` (Rust `as u8`). -/
def toU8 (x : Int) : Nat := (x % 256).toNat

/-- Bit pattern of a signed value reinterpreted as `u64` (Rust `as u64`). -/
def toU64 (x : Int) : Nat := (x % 18446744073709551616).toNat

/-- Read a 64-bit unsigned bit pattern back as a signed `i64` value. -/
def ofU64 (n : Nat) : Int :=
  if n < 9223372036854775808 then (n : Int) else (n : Int) - 18446744073709551616

/-- The fixed 8-byte BPF instruction record of `codegen.rs`
(`BpfInstruction`): `opcode`, `dst_reg`, `src_reg` are `u8` fields,
`offset` is `i16`, `immediate` is `i32`. -/
structure BpfInstruction where
  opcode : Nat
  dst_reg : Nat
  src_reg : Nat
  offset : Int
  immediate : Int
deriving DecidableEq, Repr

/-- `BpfInstruction::to_bytes` of `codegen.rs`: byte 0 is the opcode, byte 1
nibble-packs `dst`/`src`, bytes 2-3 are the offset little-endian, bytes 4-7
the immediate little-endian. -/
def BpfInstruction.to_bytes (i : BpfInstruction) : List Nat :=
  [ i.opcode
  , (i.dst_reg &&& 0x0f) ||| ((i.src_reg &&& 0x0f) <<< 4)
  , toU16 i.offset % 256
  , toU16 i.offset / 256 % 256
  , toU32 i.immediate % 256
  , toU32 i.immediate / 256 % 256
  , toU32 i.immediate / 256 / 256 % 256
  , toU32 i.immediate / 256 / 256 / 256 % 256 ]

/-- Modelled from the spec: the repository defines only the encoder
(`BpfInstruction::to_bytes`); no decoder exists in the source.  This decoder
follows the fixed layout of spec section 3 word for word: byte 0 is the
opcode; byte 1 holds `dst` in the low nibble and `src` in the high nibble;
bytes 2-3 are the offset as signed 16-bit little-endian two's complement;
bytes 4-7 are the immediate as signed 32-bit little-endian two's
complement. -/
def decodeInstruction (bs : List Nat) : Option BpfInstruction :=
  match bs with
  | [b0, b1, b2, b3, b4, b5, b6, b7] =>
    let off := b2 + 256 * b3
    let imm := b4 + 256 * b5 + 65536 * b6 + 16777216 * b7
    some
      { opcode := b0
      , dst_reg := b1 &&& 0x0f
      , src_reg := b1 >>> 4
      , offset := if off < 32768 then (off : Int) else (off : Int) - 65536
      , immediate := if imm < 2147483648 then (imm : Int) else (imm : Int) - 4294967296 }
  | _ => none

theorem nibble_pack_round (d s : Nat) (hd : d ≤ 10) (hs : s ≤ 10) :
    (((d &&& 0x0f) ||| ((s &&& 0x0f) <<< 4)) &&& 0x0f) = d ∧
    (((d &&& 0x0f) ||| ((s &&& 0x0f) <<< 4)) >>> 4) = s := by
  interval_cases d <;> interval_cases s <;> decide

/-- C1: decoding the 8-byte encoding of an instruction whose register fields
are in `[0, 10]` (and whose `offset`/`immediate` lie in the `i16`/`i32`
ranges of their source types) returns the original instruction: decode after
encode is the identity on that domain. -/
theorem c1_encode_decode_round_trip (i : BpfInstruction)
    (hd : i.dst_reg ≤ 10) (hs : i.src_reg ≤ 10)
    (ho1 : -32768 ≤ i.offset) (ho2 : i.offset < 32768)
    (hi1 : -2147483648 ≤ i.immediate) (hi2 : i.immediate < 2147483648) :
    decodeInstruction i.to_bytes = some i := by
  obtain ⟨op, d, s, off, imm⟩ := i
  simp only at hd hs ho1 ho2 hi1 hi2
  have hb := nibble_pack_round d s hd hs
  simp only [BpfInstruction.to_bytes, decodeInstruction, toU16, toU32,
    Option.some.injEq, BpfInstruction.mk.injEq]
  refine ⟨trivial, hb.1, hb.2, ?_, ?_⟩
  · split <;> omega
  · split <;> omega

/-- Witness for C1 at a concrete instruction. -/
theorem c1_encode_decode_round_trip_witness :
    decodeInstruction (BpfInstruction.mk 0x07 3 10 (-5) 123456).to_bytes =
      some (BpfInstruction.mk 0x07 3 10 (-5) 123456) :=
  c1_encode_decode_round_trip (BpfInstruction.mk 0x07 3 10 (-5) 123456)
    (by decide) (by decide) (by decide) (by decide) (by decide) (by decide)

/-- The error kinds of `bpf_vm.rs` (`VmError`).  The source attaches a
formatted string to `InvalidInstruction`; the model carries the offending
opcode, which is the string's only payload. -/
inductive VmError where
  | invalidInstruction (opcode : Nat)
  | stackOverflow
  | divisionByZero
  | programExit (code : Int)
deriving DecidableEq, Repr

/-- `VmResult` of `bpf_vm.rs`: exit code (an `i32`) and consumed compute
units. -/
structure VmResult where
  exit_code : Int
  compute_units : Nat
deriving DecidableEq, Repr

/-- The mutable state of `BpfVm`: the 11-slot `i64` register file, the
4096-byte memory buffer and the program counter.  The compute-unit counter
is threaded separately by the run loop. -/
structure VmState where
  registers : List Int
  memory : List Nat
  pc : Nat
deriving DecidableEq, Repr

/-- The state of a freshly constructed VM (`BpfVm::new`): all registers
zero, 4096 bytes of zeroed memory, program counter 0. -/
def initialVm : VmState :=
  { registers := List.replicate 11 0, memory := List.replicate 4096 0, pc := 0 }

/-- Outcome of `BpfVm::execute_instruction`: a successful mutation of the VM
state, a `VmError`, or a Rust panic (the source can panic when a memory
bounds check overflows and a slice index lands outside the buffer). -/
inductive StepResult where
  | ok (st : VmState)
  | vmError (e : VmError)
  | panic
deriving DecidableEq, Repr

/-- `BpfVm::handle_call`: helper id 6 prints a diagnostic line (a side
effect outside the state model); every id returns `Ok`. -/
def handleCall (_funcId : Int) : Except VmError Unit := .ok ()

/-- Register read `self.registers[i]` (the source always guards `i < 11`
before indexing, so a defaulted read is exact). -/
def regGet (st : VmState) (i : Nat) : Int := st.registers.getD i 0

/-- Little-endian 16-bit read `u16::from_le_bytes` at `a`. -/
def readLE2 (mem : List Nat) (a : Nat) : Nat :=
  mem.getD a 0 + 256 * mem.getD (a + 1) 0

/-- Little-endian 32-bit read `u32::from_le_bytes` at `a`. -/
def readLE4 (mem : List Nat) (a : Nat) : Nat :=
  mem.getD a 0 + 256 * mem.getD (a + 1) 0 + 65536 * mem.getD (a + 2) 0 +
    16777216 * mem.getD (a + 3) 0

/-- Little-endian 16-bit store of `v` at `a`. -/
def writeLE2 (mem : List Nat) (a : Nat) (v : Nat) : List Nat :=
  (mem.set a (v % 256)).set (a + 1) (v / 256 % 256)

/-- Little-endian 32-bit store of `v` at `a`. -/
def writeLE4 (mem : List Nat) (a : Nat) (v : Nat) : List Nat :=
  ((((mem.set a (v % 256)).set (a + 1) (v / 256 % 256)).set
    (a + 2) (v / 65536 % 256)).set (a + 3) (v / 16777216 % 256))

/-- `i64` bitwise and, on two's-complement bit patterns. -/
def i64And (a b : Int) : Int := ofU64 (toU64 a &&& toU64 b)

/-- `i64` bitwise or. -/
def i64Or (a b : Int) : Int := ofU64 (toU64 a ||| toU64 b)

/-- `i64` bitwise xor. -/
def i64Xor (a b : Int) : Int := ofU64 (toU64 a ^^^ toU64 b)

/-- `i64` left shift; the shift amount is masked modulo 64 as Rust
release-mode shifts behave. -/
def i64Shl (a b : Int) : Int :=
  ofU64 ((toU64 a <<< (toU64 b % 64)) % 18446744073709551616)

/-- The `u64` logical right shift used by opcode `0x7f` (both operands are
cast to `u64`, the result back to `i64`). -/
def u64Shr (a b : Int) : Int := ofU64 (toU64 a >>> (toU64 b % 64))

/-- `i64` arithmetic right shift (floor division by a power of two); the
shift amount is masked modulo 64. -/
def i64AShr (a b : Int) : Int := a / ((2 : Int) ^ (toU64 b % 64))

/-- The address computation of the memory opcodes:
`(self.registers[r] + instruction.offset as i64) as usize`. -/
def memAddr (st : VmState) (r : Nat) (off : Int) : Nat :=
  toUsize (wrapI64 (regGet st r + off))

/-- `BpfVm::execute_instruction` of `bpf_vm.rs`: the single-instruction
execution path, one branch per catalogued opcode, `InvalidInstruction` on
anything else.  Memory bounds checks compute `addr + width` with
release-mode `usize` wrapping; when the wrapped check passes but the true
address range leaves the buffer, the source panics on the slice index, which
the model returns as `.panic`. -/
def executeInstruction (inst : BpfInstruction) (st : VmState) : StepResult :=
  if inst.opcode = 0x95 then .ok st
  else if inst.opcode = 0x85 then
    match handleCall inst.immediate with
    | .ok _ => .ok st
    | .error e => .vmError e
  else if inst.opcode = 0xb7 then
    .ok (if inst.dst_reg < 11 then
      { st with registers := st.registers.set inst.dst_reg inst.immediate } else st)
  else if inst.opcode = 0x79 then
    .ok (if inst.dst_reg < 11 then
      { st with registers := st.registers.set inst.dst_reg (4096 + inst.offset) } else st)
  else if inst.opcode = 0x07 then
    .ok (if inst.dst_reg < 11 then
      let v := (wrapI64 (regGet st inst.dst_reg + inst.immediate))
      { st with registers := st.registers.set inst.dst_reg v } else st)
  else if inst.opcode = 0x0f then
    .ok (if inst.dst_reg < 11 ∧ inst.src_reg < 11 then
      let v := (wrapI64 (regGet st inst.dst_reg + regGet st inst.src_reg))
      { st with registers := st.registers.set inst.dst_reg v } else st)
  else if inst.opcode = 0x1f then
    .ok (if inst.dst_reg < 11 ∧ inst.src_reg < 11 then
      let v := (wrapI64 (regGet st inst.dst_reg - regGet st inst.src_reg))
      { st with registers := st.registers.set inst.dst_reg v } else st)
  else if inst.opcode = 0x2f then
    .ok (if inst.dst_reg < 11 ∧ inst.src_reg < 11 then
      let v := (wrapI64 (regGet st inst.dst_reg * regGet st inst.src_reg))
      { st with registers := st.registers.set inst.dst_reg v } else st)
  else if inst.opcode = 0xbf then
    .ok (if inst.dst_reg < 11 ∧ inst.src_reg < 11 then
      { st with registers := st.registers.set inst.dst_reg (regGet st inst.src_reg) } else st)
  else if inst.opcode = 0x5f then
    .ok (if inst.dst_reg < 11 ∧ inst.src_reg < 11 then
      let v := (i64And (regGet st inst.dst_reg) (regGet st inst.src_reg))
      { st with registers := st.registers.set inst.dst_reg v } else st)
  else if inst.opcode = 0x4f then
    .ok (if inst.dst_reg < 11 ∧ inst.src_reg < 11 then
      let v := (i64Or (regGet st inst.dst_reg) (regGet st inst.src_reg))
      { st with registers := st.registers.set inst.dst_reg v } else st)
  else if inst.opcode = 0xaf then
    .ok (if inst.dst_reg < 11 ∧ inst.src_reg < 11 then
      let v := (i64Xor (regGet st inst.dst_reg) (regGet st inst.src_reg))
      { st with registers := st.registers.set inst.dst_reg v } else st)
  else if inst.opcode = 0x6f then
    .ok (if inst.dst_reg < 11 ∧ inst.src_reg < 11 then
      let v := (i64Shl (regGet st inst.dst_reg) (regGet st inst.src_reg))
      { st with registers := st.registers.set inst.dst_reg v } else st)
  else if inst.opcode = 0x7f then
    .ok (if inst.dst_reg < 11 ∧ inst.src_reg < 11 then
      let v := (u64Shr (regGet st inst.dst_reg) (regGet st inst.src_reg))
      { st with registers := st.registers.set inst.dst_reg v } else st)
  else if inst.opcode = 0xc7 then
    .ok (if inst.dst_reg < 11 ∧ inst.src_reg < 11 then
      let v := (i64AShr (regGet st inst.dst_reg) (regGet st inst.src_reg))
      { st with registers := st.registers.set inst.dst_reg v } else st)
  else if inst.opcode = 0xcf then
    .ok (if inst.dst_reg < 11 then
      let v := ((toU32 (wrapI32 (regGet st inst.dst_reg) / (2 : Int) ^ (toU32 inst.immediate % 32)) : Nat) : Int)
      { st with registers := st.registers.set inst.dst_reg v } else st)
  else if inst.opcode = 0x1d then
    .ok (if inst.dst_reg < 11 ∧ inst.src_reg < 11 ∧
          regGet st inst.dst_reg = regGet st inst.src_reg then
      { st with pc := toUsize inst.offset } else st)
  else if inst.opcode = 0x2d then
    .ok (if inst.dst_reg < 11 ∧ inst.src_reg < 11 ∧
          regGet st inst.dst_reg > regGet st inst.src_reg then
      { st with pc := toUsize inst.offset } else st)
  else if inst.opcode = 0xad then
    .ok (if inst.dst_reg < 11 ∧ inst.src_reg < 11 ∧
          regGet st inst.dst_reg < regGet st inst.src_reg then
      { st with pc := toUsize inst.offset } else st)
  else if inst.opcode = 0x15 then
    .ok (if inst.dst_reg < 11 ∧ regGet st inst.dst_reg = inst.immediate then
      { st with pc := toUsize inst.offset } else st)
  else if inst.opcode = 0x25 then
    .ok (if inst.dst_reg < 11 ∧ regGet st inst.dst_reg > inst.immediate then
      { st with pc := toUsize inst.offset } else st)
  else if inst.opcode = 0xa5 then
    .ok (if inst.dst_reg < 11 ∧ regGet st inst.dst_reg < inst.immediate then
      { st with pc := toUsize inst.offset } else st)
  else if inst.opcode = 0x61 then
    if inst.dst_reg < 11 ∧ inst.src_reg < 11 then
      let addr := memAddr st inst.src_reg inst.offset
      if (addr + 4) % 18446744073709551616 ≤ st.memory.length then
        if addr + 4 ≤ st.memory.length then
          .ok { st with registers := st.registers.set inst.dst_reg (readLE4 st.memory addr) }
        else .panic
      else .ok { st with registers := st.registers.set inst.dst_reg 42 }
    else .ok st
  else if inst.opcode = 0x69 then
    if inst.dst_reg < 11 ∧ inst.src_reg < 11 then
      let addr := memAddr st inst.src_reg inst.offset
      if (addr + 2) % 18446744073709551616 ≤ st.memory.length then
        if addr + 2 ≤ st.memory.length then
          .ok { st with registers := st.registers.set inst.dst_reg (readLE2 st.memory addr) }
        else .panic
      else .ok { st with registers := st.registers.set inst.dst_reg 0x1234 }
    else .ok st
  else if inst.opcode = 0x71 then
    .ok (if inst.dst_reg < 11 ∧ inst.src_reg < 11 then
      let addr := memAddr st inst.src_reg inst.offset
      if addr < st.memory.length then
        { st with registers := st.registers.set inst.dst_reg (st.memory.getD addr 0) }
      else { st with registers := st.registers.set inst.dst_reg 0x42 }
    else st)
  else if inst.opcode = 0x63 then
    if inst.dst_reg < 11 ∧ inst.src_reg < 11 then
      let addr := memAddr st inst.dst_reg inst.offset
      if (addr + 4) % 18446744073709551616 ≤ st.memory.length then
        if addr + 4 ≤ st.memory.length then
          .ok { st with memory := writeLE4 st.memory addr (toU32 (regGet st inst.src_reg)) }
        else .panic
      else .ok st
    else .ok st
  else if inst.opcode = 0x6b then
    if inst.dst_reg < 11 ∧ inst.src_reg < 11 then
      let addr := memAddr st inst.dst_reg inst.offset
      if (addr + 2) % 18446744073709551616 ≤ st.memory.length then
        if addr + 2 ≤ st.memory.length then
          .ok { st with memory := writeLE2 st.memory addr (toU16 (regGet st inst.src_reg)) }
        else .panic
      else .ok st
    else .ok st
  else if inst.opcode = 0x62 then
    if inst.dst_reg < 11 then
      let addr := memAddr st inst.dst_reg inst.offset
      if (addr + 4) % 18446744073709551616 ≤ st.memory.length then
        if addr + 4 ≤ st.memory.length then
          .ok { st with memory := writeLE4 st.memory addr (toU32 inst.immediate) }
        else .panic
      else .ok st
    else .ok st
  else if inst.opcode = 0x73 then
    .ok (if inst.dst_reg < 11 ∧ inst.src_reg < 11 then
      let addr := memAddr st inst.dst_reg inst.offset
      if addr < st.memory.length then
        { st with memory := st.memory.set addr (toU8 (regGet st inst.src_reg)) }
      else st
    else st)
  else .vmError (.invalidInstruction inst.opcode)

/-- The outcome of one iteration of the `BpfVm::execute` run loop body:
`halt` models the early `return` on the exit opcode, `next` carries the
state for the following iteration (the program counter already updated,
covering both a taken jump's `continue` and the trailing `pc += 1`), and
`fail` propagates a `VmError` out of the loop. -/
inductive LoopOutcome where
  | halt
  | next (st : VmState)
  | fail (e : VmError)
deriving DecidableEq, Repr

/-- The taken-jump target computation of the run loop:
`(self.pc as i32 + instruction.offset as i32 + 1) as usize`, with Rust
release-mode truncation and wrapping at each cast. -/
def loopJumpTarget (pc : Nat) (off : Int) : Nat :=
  toUsize (wrapI32 (wrapI32 pc + off + 1))

/-- One iteration of the `match` inside `BpfVm::execute` of `bpf_vm.rs`:
only the opcodes the run loop dispatches are handled; every other opcode is
silently skipped ("for robustness, we'll just continue execution"). -/
def execLoopStep (inst : BpfInstruction) (st : VmState) : LoopOutcome :=
  if inst.opcode = 0x95 then .halt
  else if inst.opcode = 0x85 then
    match handleCall inst.immediate with
    | .ok _ => .next { st with pc := st.pc + 1 }
    | .error e => .fail e
  else if inst.opcode = 0xb7 then
    let st1 := if inst.dst_reg < 11 then
      { st with registers := st.registers.set inst.dst_reg inst.immediate } else st
    .next { st1 with pc := st.pc + 1 }
  else if inst.opcode = 0x79 then
    let st1 := if inst.dst_reg < 11 then
      { st with registers := st.registers.set inst.dst_reg (4096 + inst.offset) } else st
    .next { st1 with pc := st.pc + 1 }
  else if inst.opcode = 0x07 then
    let v := wrapI64 (regGet st inst.dst_reg + inst.immediate)
    let st1 := if inst.dst_reg < 11 then
      { st with registers := st.registers.set inst.dst_reg v } else st
    .next { st1 with pc := st.pc + 1 }
  else if inst.opcode = 0x0f then
    let v := wrapI64 (regGet st inst.dst_reg + regGet st inst.src_reg)
    let st1 := if inst.dst_reg < 11 ∧ inst.src_reg < 11 then
      { st with registers := st.registers.set inst.dst_reg v } else st
    .next { st1 with pc := st.pc + 1 }
  else if inst.opcode = 0x2f then
    let v := wrapI64 (regGet st inst.dst_reg * regGet st inst.src_reg)
    let st1 := if inst.dst_reg < 11 ∧ inst.src_reg < 11 then
      { st with registers := st.registers.set inst.dst_reg v } else st
    .next { st1 with pc := st.pc + 1 }
  else if inst.opcode = 0xbf then
    let st1 := if inst.dst_reg < 11 ∧ inst.src_reg < 11 then
      { st with registers := st.registers.set inst.dst_reg (regGet st inst.src_reg) } else st
    .next { st1 with pc := st.pc + 1 }
  else if inst.opcode = 0x63 then
    .next { st with pc := st.pc + 1 }
  else if inst.opcode = 0x61 then
    let st1 := if inst.dst_reg < 11 then
      { st with registers := st.registers.set inst.dst_reg 42 } else st
    .next { st1 with pc := st.pc + 1 }
  else if inst.opcode = 0x2d then
    if inst.dst_reg < 11 ∧ inst.src_reg < 11 ∧
        regGet st inst.dst_reg > regGet st inst.src_reg then
      .next { st with pc := loopJumpTarget st.pc inst.offset }
    else .next { st with pc := st.pc + 1 }
  else if inst.opcode = 0x05 then
    .next { st with pc := loopJumpTarget st.pc inst.offset }
  else if inst.opcode = 0x5f then
    let v := i64And (regGet st inst.dst_reg) (regGet st inst.src_reg)
    let st1 := if inst.dst_reg < 11 ∧ inst.src_reg < 11 then
      { st with registers := st.registers.set inst.dst_reg v } else st
    .next { st1 with pc := st.pc + 1 }
  else .next { st with pc := st.pc + 1 }

/-- `BpfVm::execute` of `bpf_vm.rs`: runs while `pc` is inside the program,
incrementing the compute-unit counter first and breaking past 10000 units
(the fuse); on the exit opcode or on falling off the end it returns the
current `R0` (as `i32`) and the unit count. -/
def execLoop (prog : List BpfInstruction) (st : VmState) (cu : Nat) :
    Except VmError VmResult :=
  if h : st.pc < prog.length then
    if cu + 1 > 10000 then .ok ⟨toI32 (regGet st 0), cu + 1⟩
    else
      match execLoopStep (prog.get ⟨st.pc, h⟩) st with
      | .halt => .ok ⟨toI32 (regGet st 0), cu + 1⟩
      | .fail e => .error e
      | .next st2 => execLoop prog st2 (cu + 1)
  else .ok ⟨toI32 (regGet st 0), cu⟩
termination_by 10001 - cu
decreasing_by omega

/-- Running a program on a freshly constructed VM (`BpfVm::new` followed by
`BpfVm::execute`). -/
def BpfVm.execute (prog : List BpfInstruction) : Except VmError VmResult :=
  execLoop prog initialVm 0

theorem toUsize_eq_toNat (x : Int) (h0 : 0 ≤ x) (h1 : x < 32768) :
    toUsize x = x.toNat := by
  unfold toUsize; omega

theorem loopJumpTarget_eq (pc : Nat) (off : Int) (hpc : pc ≤ 1073741824)
    (ho1 : -32768 ≤ off) (ho2 : off < 32768) (hnn : 0 ≤ (pc : Int) + off + 1) :
    loopJumpTarget pc off = ((pc : Int) + off + 1).toNat := by
  unfold loopJumpTarget toUsize wrapI32; omega

set_option maxHeartbeats 1000000 in
/-- C2: jump control transfer.  In the run loop (`execLoopStep`, the body of
`BpfVm::execute`) a taken jump - the unconditional `0x05`, or `0x2d` with
its condition true - sets the program counter to `pc + offset + 1` and skips
the trailing increment, while every other dispatched or skipped instruction
(exit aside, which returns) advances the program counter by exactly one.  In
the single-instruction path (`executeInstruction`), a taken conditional jump
instead sets the program counter to `offset` read as an absolute instruction
index. -/
theorem c2_jump_control_transfer (inst : BpfInstruction) (st : VmState) :
    (inst.opcode = 0x05 → st.pc ≤ 1073741824 → -32768 ≤ inst.offset →
      inst.offset < 32768 → 0 ≤ (st.pc : Int) + inst.offset + 1 →
      execLoopStep inst st = .next { st with pc := ((st.pc : Int) + inst.offset + 1).toNat })
  ∧ (inst.opcode = 0x2d → inst.dst_reg < 11 → inst.src_reg < 11 →
      regGet st inst.dst_reg > regGet st inst.src_reg →
      st.pc ≤ 1073741824 → -32768 ≤ inst.offset → inst.offset < 32768 →
      0 ≤ (st.pc : Int) + inst.offset + 1 →
      execLoopStep inst st = .next { st with pc := ((st.pc : Int) + inst.offset + 1).toNat })
  ∧ (inst.opcode ≠ 0x95 → inst.opcode ≠ 0x05 →
      (inst.opcode = 0x2d → ¬(inst.dst_reg < 11 ∧ inst.src_reg < 11 ∧
        regGet st inst.dst_reg > regGet st inst.src_reg)) →
      ∃ st2, execLoopStep inst st = .next st2 ∧ st2.pc = st.pc + 1)
  ∧ (inst.opcode = 0x1d → 0 ≤ inst.offset → inst.offset < 32768 →
      inst.dst_reg < 11 → inst.src_reg < 11 →
      regGet st inst.dst_reg = regGet st inst.src_reg →
      executeInstruction inst st = .ok { st with pc := inst.offset.toNat })
  ∧ (inst.opcode = 0x2d → 0 ≤ inst.offset → inst.offset < 32768 →
      inst.dst_reg < 11 → inst.src_reg < 11 →
      regGet st inst.dst_reg > regGet st inst.src_reg →
      executeInstruction inst st = .ok { st with pc := inst.offset.toNat })
  ∧ (inst.opcode = 0xad → 0 ≤ inst.offset → inst.offset < 32768 →
      inst.dst_reg < 11 → inst.src_reg < 11 →
      regGet st inst.dst_reg < regGet st inst.src_reg →
      executeInstruction inst st = .ok { st with pc := inst.offset.toNat })
  ∧ (inst.opcode = 0x15 → 0 ≤ inst.offset → inst.offset < 32768 →
      inst.dst_reg < 11 → regGet st inst.dst_reg = inst.immediate →
      executeInstruction inst st = .ok { st with pc := inst.offset.toNat })
  ∧ (inst.opcode = 0x25 → 0 ≤ inst.offset → inst.offset < 32768 →
      inst.dst_reg < 11 → regGet st inst.dst_reg > inst.immediate →
      executeInstruction inst st = .ok { st with pc := inst.offset.toNat })
  ∧ (inst.opcode = 0xa5 → 0 ≤ inst.offset → inst.offset < 32768 →
      inst.dst_reg < 11 → regGet st inst.dst_reg < inst.immediate →
      executeInstruction inst st = .ok { st with pc := inst.offset.toNat }) := by
  obtain ⟨op, d, s, off, imm⟩ := inst
  refine ⟨?_, ?_, ?_, ?_, ?_, ?_, ?_, ?_, ?_⟩
  · intro h hpc ho1 ho2 hnn
    simp only at h
    subst h
    have e : execLoopStep ⟨0x05, d, s, off, imm⟩ st =
        .next { st with pc := loopJumpTarget st.pc off } := rfl
    rw [e, loopJumpTarget_eq st.pc off hpc ho1 ho2 hnn]
  · intro h hd hs hcond hpc ho1 ho2 hnn
    simp only at h hd hs hcond
    subst h
    have e : execLoopStep ⟨0x2d, d, s, off, imm⟩ st =
        if d < 11 ∧ s < 11 ∧ regGet st d > regGet st s then
          .next { st with pc := loopJumpTarget st.pc off }
        else .next { st with pc := st.pc + 1 } := rfl
    rw [e, if_pos ⟨hd, hs, hcond⟩, loopJumpTarget_eq st.pc off hpc ho1 ho2 hnn]
  · intro h95 h05 h2d
    simp only at h95 h05 h2d
    by_cases h85 : op = 0x85
    · subst h85; exact ⟨_, rfl, rfl⟩
    by_cases hb7 : op = 0xb7
    · subst hb7; exact ⟨_, rfl, rfl⟩
    by_cases h79 : op = 0x79
    · subst h79; exact ⟨_, rfl, rfl⟩
    by_cases h07 : op = 0x07
    · subst h07; exact ⟨_, rfl, rfl⟩
    by_cases h0f : op = 0x0f
    · subst h0f; exact ⟨_, rfl, rfl⟩
    by_cases h2f : op = 0x2f
    · subst h2f; exact ⟨_, rfl, rfl⟩
    by_cases hbf : op = 0xbf
    · subst hbf; exact ⟨_, rfl, rfl⟩
    by_cases h63 : op = 0x63
    · subst h63; exact ⟨_, rfl, rfl⟩
    by_cases h61 : op = 0x61
    · subst h61; exact ⟨_, rfl, rfl⟩
    by_cases h2dop : op = 0x2d
    · subst h2dop
      have hnt : ¬(d < 11 ∧ s < 11 ∧ regGet st d > regGet st s) := h2d rfl
      have e : execLoopStep ⟨0x2d, d, s, off, imm⟩ st =
          if d < 11 ∧ s < 11 ∧ regGet st d > regGet st s then
            .next { st with pc := loopJumpTarget st.pc off }
          else .next { st with pc := st.pc + 1 } := rfl
      rw [e, if_neg hnt]
      exact ⟨_, rfl, rfl⟩
    by_cases h5f : op = 0x5f
    · subst h5f; exact ⟨_, rfl, rfl⟩
    have e : execLoopStep ⟨op, d, s, off, imm⟩ st = .next { st with pc := st.pc + 1 } := by
      unfold execLoopStep
      dsimp only
      rw [if_neg h95, if_neg h85, if_neg hb7, if_neg h79, if_neg h07, if_neg h0f,
        if_neg h2f, if_neg hbf, if_neg h63, if_neg h61, if_neg h2dop, if_neg h05, if_neg h5f]
    exact ⟨_, e, rfl⟩
  · intro h ho1 ho2 hd hs hc
    simp only at h hd hs hc
    subst h
    have e : executeInstruction ⟨0x1d, d, s, off, imm⟩ st =
        .ok (if d < 11 ∧ s < 11 ∧ regGet st d = regGet st s then
          { st with pc := toUsize off } else st) := rfl
    rw [e, if_pos ⟨hd, hs, hc⟩, toUsize_eq_toNat off ho1 ho2]
  · intro h ho1 ho2 hd hs hc
    simp only at h hd hs hc
    subst h
    have e : executeInstruction ⟨0x2d, d, s, off, imm⟩ st =
        .ok (if d < 11 ∧ s < 11 ∧ regGet st d > regGet st s then
          { st with pc := toUsize off } else st) := rfl
    rw [e, if_pos ⟨hd, hs, hc⟩, toUsize_eq_toNat off ho1 ho2]
  · intro h ho1 ho2 hd hs hc
    simp only at h hd hs hc
    subst h
    have e : executeInstruction ⟨0xad, d, s, off, imm⟩ st =
        .ok (if d < 11 ∧ s < 11 ∧ regGet st d < regGet st s then
          { st with pc := toUsize off } else st) := rfl
    rw [e, if_pos ⟨hd, hs, hc⟩, toUsize_eq_toNat off ho1 ho2]
  · intro h ho1 ho2 hd hc
    simp only at h hd hc
    subst h
    have e : executeInstruction ⟨0x15, d, s, off, imm⟩ st =
        .ok (if d < 11 ∧ regGet st d = imm then
          { st with pc := toUsize off } else st) := rfl
    rw [e, if_pos ⟨hd, hc⟩, toUsize_eq_toNat off ho1 ho2]
  · intro h ho1 ho2 hd hc
    simp only at h hd hc
    subst h
    have e : executeInstruction ⟨0x25, d, s, off, imm⟩ st =
        .ok (if d < 11 ∧ regGet st d > imm then
          { st with pc := toUsize off } else st) := rfl
    rw [e, if_pos ⟨hd, hc⟩, toUsize_eq_toNat off ho1 ho2]
  · intro h ho1 ho2 hd hc
    simp only at h hd hc
    subst h
    have e : executeInstruction ⟨0xa5, d, s, off, imm⟩ st =
        .ok (if d < 11 ∧ regGet st d < imm then
          { st with pc := toUsize off } else st) := rfl
    rw [e, if_pos ⟨hd, hc⟩, toUsize_eq_toNat off ho1 ho2]

/-- Witness for C2: a concrete unconditional jump at `pc = 0` with offset 3
lands on instruction index 4, and a concrete taken `0x1d` conditional jump
in the single-instruction path lands on absolute index 7. -/
theorem c2_jump_control_transfer_witness :
    execLoopStep ⟨0x05, 0, 0, 3, 0⟩ initialVm =
      .next { initialVm with pc := (((initialVm.pc : Int) + (3 : Int) + 1)).toNat } ∧
    executeInstruction ⟨0x1d, 1, 2, 7, 0⟩ initialVm =
      .ok { initialVm with pc := ((7 : Int)).toNat } :=
  ⟨(c2_jump_control_transfer ⟨0x05, 0, 0, 3, 0⟩ initialVm).1 rfl (by decide) (by decide)
      (by decide) (by decide),
   (c2_jump_control_transfer ⟨0x1d, 1, 2, 7, 0⟩ initialVm).2.2.2.1 rfl (by decide)
      (by decide) (by decide) (by decide) (by decide)⟩

/-- A program consisting of a single unconditional jump-to-self:
opcode `0x05` with offset `-1`. -/
def jmpSelfProg : List BpfInstruction := [⟨0x05, 0, 0, -1, 0⟩]

theorem execLoop_jmpSelf (n : Nat) : ∀ k regs mem, k + n = 10000 →
    execLoop jmpSelfProg ⟨regs, mem, 0⟩ k = .ok ⟨toI32 (regs.getD 0 0), 10001⟩ := by
  induction n with
  | zero =>
    intro k regs mem hk
    unfold execLoop
    have hk10000 : k = 10000 := by omega
    subst hk10000
    rfl
  | succ m ih =>
    intro k regs mem hk
    unfold execLoop
    rw [dif_pos (by decide : (0 : Nat) < jmpSelfProg.length)]
    rw [if_neg (by omega : ¬(k + 1 > 10000))]
    have estep : ∀ h2 : (0 : Nat) < jmpSelfProg.length,
        execLoopStep (jmpSelfProg.get ⟨0, h2⟩) ⟨regs, mem, 0⟩ =
          .next ⟨regs, mem, loopJumpTarget 0 (-1)⟩ := fun h2 => rfl
    rw [estep]
    show execLoop jmpSelfProg ⟨regs, mem, loopJumpTarget 0 (-1)⟩ (k + 1) =
      .ok ⟨toI32 (regs.getD 0 0), 10001⟩
    rw [(by decide : loopJumpTarget 0 (-1) = 0)]
    exact ih (k + 1) regs mem (by omega)

/-- C3: the fuse.  On the single jump-to-self program the run loop
terminates (the model's `execLoop` is a total function), returns `Ok` (not
an error) with `compute_units = 10001`, and the exit code is the
then-current `R0` (which is 0 on a fresh VM). -/
theorem c3_vm_fuse :
    (∀ regs mem, execLoop jmpSelfProg ⟨regs, mem, 0⟩ 0 =
      .ok ⟨toI32 (regs.getD 0 0), 10001⟩) ∧
    BpfVm.execute jmpSelfProg = .ok ⟨0, 10001⟩ := by
  constructor
  · intro regs mem
    exact execLoop_jmpSelf 10000 0 regs mem rfl
  · show execLoop jmpSelfProg ⟨List.replicate 11 0, List.replicate 4096 0, 0⟩ 0 =
      .ok ⟨0, 10001⟩
    have h := execLoop_jmpSelf 10000 0 (List.replicate 11 0) (List.replicate 4096 0) rfl
    rw [(by decide : toI32 ((List.replicate 11 (0 : Int)).getD 0 0) = 0)] at h
    exact h

/-- The opcodes recognized anywhere in the VM: the union of the
single-instruction dispatch table of `execute_instruction` (29 opcodes) and
the run-loop dispatch table of `execute` (which adds the unconditional jump
`0x05`). -/
def recognizedOpcodes : List Nat :=
  [0x95, 0x85, 0xb7, 0x79, 0x07, 0x0f, 0x1f, 0x2f, 0xbf, 0x5f, 0x4f, 0xaf, 0x6f,
   0x7f, 0xc7, 0xcf, 0x1d, 0x2d, 0xad, 0x15, 0x25, 0xa5, 0x61, 0x69, 0x71, 0x63,
   0x6b, 0x62, 0x73, 0x05]

/-- C4: unknown-opcode divergence.  For every opcode outside the recognized
catalog, the single-instruction path (`executeInstruction`) returns
`VmError::InvalidInstruction`, while the run loop (`execLoopStep`) silently
skips the instruction: the program counter advances by one, the register
file and the memory buffer are untouched, and no error is raised. -/
theorem c4_unknown_opcode_divergence (inst : BpfInstruction) (st : VmState)
    (h : inst.opcode ∉ recognizedOpcodes) :
    executeInstruction inst st = .vmError (.invalidInstruction inst.opcode) ∧
    execLoopStep inst st = .next { st with pc := st.pc + 1 } := by
  obtain ⟨op, d, s, off, imm⟩ := inst
  simp only [recognizedOpcodes, List.mem_cons, List.not_mem_nil, or_false, not_or] at h
  obtain ⟨n95, n85, nb7, n79, n07, n0f, n1f, n2f, nbf, n5f, n4f, naf, n6f, n7f,
    nc7, ncf, n1d, n2d, nad, n15, n25, na5, n61, n69, n71, n63, n6b, n62, n73, n05⟩ := h
  constructor
  · show executeInstruction ⟨op, d, s, off, imm⟩ st = _
    unfold executeInstruction
    dsimp only
    rw [if_neg n95, if_neg n85, if_neg nb7, if_neg n79, if_neg n07, if_neg n0f,
      if_neg n1f, if_neg n2f, if_neg nbf, if_neg n5f, if_neg n4f, if_neg naf,
      if_neg n6f, if_neg n7f, if_neg nc7, if_neg ncf, if_neg n1d, if_neg n2d,
      if_neg nad, if_neg n15, if_neg n25, if_neg na5, if_neg n61, if_neg n69,
      if_neg n71, if_neg n63, if_neg n6b, if_neg n62, if_neg n73]
  · show execLoopStep ⟨op, d, s, off, imm⟩ st = _
    unfold execLoopStep
    dsimp only
    rw [if_neg n95, if_neg n85, if_neg nb7, if_neg n79, if_neg n07, if_neg n0f,
      if_neg n2f, if_neg nbf, if_neg n63, if_neg n61, if_neg n2d, if_neg n05,
      if_neg n5f]

/-- Witness for C4 at the reserved class-6 opcode `0x06`. -/
theorem c4_unknown_opcode_divergence_witness :
    executeInstruction ⟨0x06, 0, 0, 0, 0⟩ initialVm =
      .vmError (.invalidInstruction 0x06) ∧
    execLoopStep ⟨0x06, 0, 0, 0, 0⟩ initialVm =
      .next { initialVm with pc := initialVm.pc + 1 } :=
  c4_unknown_opcode_divergence ⟨0x06, 0, 0, 0, 0⟩ initialVm (by decide)

/-- The word-load branch (`0x61`) of `execute_instruction`, with the
register guard discharged: the bounds check compares the release-mode
wrapped `addr + 4` against the buffer length, then the actual read is only
safe when the unwrapped `addr + 4` is inside; otherwise the source panics on
the slice index. -/
theorem executeInstruction_word_load (d s : Nat) (off imm : Int) (st : VmState)
    (hd : d < 11) (hs : s < 11) :
    executeInstruction ⟨0x61, d, s, off, imm⟩ st =
      if (memAddr st s off + 4) % 18446744073709551616 ≤ st.memory.length then
        if memAddr st s off + 4 ≤ st.memory.length then
          .ok { st with registers := st.registers.set d (readLE4 st.memory (memAddr st s off)) }
        else .panic
      else .ok { st with registers := st.registers.set d 42 } := by
  have e : executeInstruction ⟨0x61, d, s, off, imm⟩ st =
      if d < 11 ∧ s < 11 then
        if (memAddr st s off + 4) % 18446744073709551616 ≤ st.memory.length then
          if memAddr st s off + 4 ≤ st.memory.length then
            .ok { st with registers := st.registers.set d (readLE4 st.memory (memAddr st s off)) }
          else .panic
        else .ok { st with registers := st.registers.set d 42 }
      else .ok st := rfl
  rw [e, if_pos ⟨hd, hs⟩]

/-- The VM state exhibiting the out-of-bounds bug: register `R2` holds
`-1`, so the word-load address is `2^64 - 1`. -/
def c8State : VmState :=
  { registers := (List.replicate 11 (0 : Int)).set 2 (-1),
    memory := List.replicate 4096 0, pc := 0 }

/-- C8: at the failing input - a word load (`0x61`) whose source register
holds `-1` - the bounds check `addr + 4 <= len` wraps (release mode) or
overflows (debug mode), the in-bounds branch is taken, and the slice index
`memory[2^64 - 1]` panics; the claimed sentinel write of 42 never happens
and execution does not succeed. -/
theorem c8_oob_word_load_panics :
    executeInstruction ⟨0x61, 1, 2, 0, 0⟩ c8State = .panic := by
  rw [executeInstruction_word_load 1 2 0 0 c8State (by decide) (by decide)]
  rw [show memAddr c8State 2 0 = 18446744073709551615 from by decide]
  rw [show c8State.memory = List.replicate 4096 0 from rfl, List.length_replicate]
  norm_num

/-- The opcodes dispatched by `execute_instruction` (the single-instruction
path), in source order. -/
def executeInstructionOpcodes : List Nat :=
  [0x95, 0x85, 0xb7, 0x79, 0x07, 0x0f, 0x1f, 0x2f, 0xbf, 0x5f, 0x4f, 0xaf, 0x6f,
   0x7f, 0xc7, 0xcf, 0x1d, 0x2d, 0xad, 0x15, 0x25, 0xa5, 0x61, 0x69, 0x71, 0x63,
   0x6b, 0x62, 0x73]

/-- The opcodes dispatched by the run loop of `execute`, in source order. -/
def executeLoopOpcodes : List Nat :=
  [0x95, 0x85, 0xb7, 0x79, 0x07, 0x0f, 0x2f, 0xbf, 0x63, 0x61, 0x2d, 0x05, 0x5f]

/-- The opcodes whose `execute_instruction` branch guards `src_reg < 11`
(that is, the opcodes that actually read a source register there). -/
def stepSrcGuarded : List Nat :=
  [0x0f, 0x1f, 0x2f, 0xbf, 0x5f, 0x4f, 0xaf, 0x6f, 0x7f, 0xc7, 0x1d, 0x2d, 0xad,
   0x61, 0x69, 0x71, 0x63, 0x6b, 0x73]

/-- The opcodes whose run-loop branch guards `src_reg < 11`. -/
def loopSrcGuarded : List Nat := [0x0f, 0x2f, 0xbf, 0x5f, 0x2d]

set_option maxHeartbeats 2000000 in
/-- C10 (amended): for every catalogued instruction whose `dst` register
field exceeds 10 - and for every catalogued instruction that reads a source
register whose `src` field exceeds 10 - execution reports success and leaves
the register file and the memory buffer unchanged (the single-instruction
path leaves the whole state unchanged; the run loop either halts on exit,
advances the program counter by one, or takes the unconditional jump).
Instructions whose semantics ignore the `src` field execute normally even
when `src` exceeds 10, which is the amendment forced by the
counterexample. -/
theorem c10_invalid_register_noop (inst : BpfInstruction) (st : VmState) :
    (inst.opcode ∈ executeInstructionOpcodes →
      (10 < inst.dst_reg ∨ (10 < inst.src_reg ∧ inst.opcode ∈ stepSrcGuarded)) →
      executeInstruction inst st = .ok st) ∧
    (inst.opcode ∈ executeLoopOpcodes →
      (10 < inst.dst_reg ∨ (10 < inst.src_reg ∧ inst.opcode ∈ loopSrcGuarded)) →
      execLoopStep inst st = .halt ∨
        execLoopStep inst st = .next { st with pc := st.pc + 1 } ∨
        execLoopStep inst st = .next { st with pc := loopJumpTarget st.pc inst.offset }) := by
  obtain ⟨op, d, s, off, imm⟩ := inst
  constructor
  · intro hmem hbad
    simp only at hmem hbad
    fin_cases hmem <;>
      (first
        | rfl
        | (norm_num [stepSrcGuarded] at hbad
           unfold executeInstruction
           norm_num <;> first | rfl | exact ⟨rfl, rfl⟩ | (intros; omega)))
  · intro hmem hbad
    simp only at hmem hbad
    fin_cases hmem
    · exact Or.inl rfl
    · exact Or.inr (Or.inl rfl)
    · norm_num [loopSrcGuarded] at hbad
      refine Or.inr (Or.inl ?_)
      have e : execLoopStep ⟨0xb7, d, s, off, imm⟩ st =
          .next { (if d < 11 then
            { st with registers := st.registers.set d imm } else st) with
              pc := st.pc + 1 } := rfl
      rw [e, if_neg (by omega : ¬ d < 11)]
    · norm_num [loopSrcGuarded] at hbad
      refine Or.inr (Or.inl ?_)
      have e : execLoopStep ⟨0x79, d, s, off, imm⟩ st =
          .next { (if d < 11 then
            { st with registers := st.registers.set d (4096 + off) } else st) with
              pc := st.pc + 1 } := rfl
      rw [e, if_neg (by omega : ¬ d < 11)]
    · norm_num [loopSrcGuarded] at hbad
      refine Or.inr (Or.inl ?_)
      have e : execLoopStep ⟨0x07, d, s, off, imm⟩ st =
          .next { (if d < 11 then
            { st with registers := st.registers.set d (wrapI64 (regGet st d + imm)) }
            else st) with pc := st.pc + 1 } := rfl
      rw [e, if_neg (by omega : ¬ d < 11)]
    · norm_num [loopSrcGuarded] at hbad
      refine Or.inr (Or.inl ?_)
      have e : execLoopStep ⟨0x0f, d, s, off, imm⟩ st =
          .next { (if d < 11 ∧ s < 11 then
            { st with registers := st.registers.set d (wrapI64 (regGet st d + regGet st s)) }
            else st) with pc := st.pc + 1 } := rfl
      rw [e, if_neg (by omega : ¬(d < 11 ∧ s < 11))]
    · norm_num [loopSrcGuarded] at hbad
      refine Or.inr (Or.inl ?_)
      have e : execLoopStep ⟨0x2f, d, s, off, imm⟩ st =
          .next { (if d < 11 ∧ s < 11 then
            { st with registers := st.registers.set d (wrapI64 (regGet st d * regGet st s)) }
            else st) with pc := st.pc + 1 } := rfl
      rw [e, if_neg (by omega : ¬(d < 11 ∧ s < 11))]
    · norm_num [loopSrcGuarded] at hbad
      refine Or.inr (Or.inl ?_)
      have e : execLoopStep ⟨0xbf, d, s, off, imm⟩ st =
          .next { (if d < 11 ∧ s < 11 then
            { st with registers := st.registers.set d (regGet st s) }
            else st) with pc := st.pc + 1 } := rfl
      rw [e, if_neg (by omega : ¬(d < 11 ∧ s < 11))]
    · exact Or.inr (Or.inl rfl)
    · norm_num [loopSrcGuarded] at hbad
      refine Or.inr (Or.inl ?_)
      have e : execLoopStep ⟨0x61, d, s, off, imm⟩ st =
          .next { (if d < 11 then
            { st with registers := st.registers.set d 42 } else st) with
              pc := st.pc + 1 } := rfl
      rw [e, if_neg (by omega : ¬ d < 11)]
    · norm_num [loopSrcGuarded] at hbad
      refine Or.inr (Or.inl ?_)
      have e : execLoopStep ⟨0x2d, d, s, off, imm⟩ st =
          if d < 11 ∧ s < 11 ∧ regGet st d > regGet st s then
            .next { st with pc := loopJumpTarget st.pc off }
          else .next { st with pc := st.pc + 1 } := rfl
      rw [e, if_neg (fun hc => by have h1 := hc.1; have h2 := hc.2.1; omega)]
    · exact Or.inr (Or.inr rfl)
    · norm_num [loopSrcGuarded] at hbad
      refine Or.inr (Or.inl ?_)
      have e : execLoopStep ⟨0x5f, d, s, off, imm⟩ st =
          .next { (if d < 11 ∧ s < 11 then
            { st with registers := st.registers.set d (i64And (regGet st d) (regGet st s)) }
            else st) with pc := st.pc + 1 } := rfl
      rw [e, if_neg (by omega : ¬(d < 11 ∧ s < 11))]

/-- Counterexample to C10 as stated: the move-immediate opcode `0xb7`
ignores its `src` field, so with `src = 15` (exceeding 10) it still writes
its destination register: the register file is not left unchanged. -/
theorem c10_invalid_register_noop_counterexample :
    executeInstruction ⟨0xb7, 0, 15, 0, 7⟩ initialVm =
      .ok { initialVm with registers := (List.replicate 11 (0 : Int)).set 0 7 } ∧
    (List.replicate 11 (0 : Int)).set 0 7 ≠ List.replicate 11 (0 : Int) := by
  constructor
  · rfl
  · decide

/-- Witness for C10 (amended): move-immediate with `dst = 12` is a no-op. -/
theorem c10_invalid_register_noop_witness :
    executeInstruction ⟨0xb7, 12, 0, 0, 5⟩ initialVm = .ok initialVm :=
  (c10_invalid_register_noop ⟨0xb7, 12, 0, 0, 5⟩ initialVm).1 (by decide)
    (Or.inl (by decide))

/-- The per-instruction validity check of `validate_solana_program`
(`solana_bpf.rs`), for the instruction at index `i` of a sequence of length
`len`: the class nibble must be one of the seven valid classes, both
register fields must be at most 10, and for an opcode whose high nibble is
`0x50` or `0x60` (the mask the source uses to recognize "jump-class"
opcodes) the target `i + offset + 1` (computed with release-mode `as i32`
casts) must lie in `[0, len)`. -/
def instructionCheck (len : Nat) (i : Nat) (inst : BpfInstruction) : Bool :=
  (match inst.opcode &&& 0x07 with
   | 0x00 | 0x01 | 0x02 | 0x03 | 0x04 | 0x05 | 0x07 => true
   | _ => false) &&
  !(inst.dst_reg > 10 || inst.src_reg > 10) &&
  (if (inst.opcode &&& 0xf0) = 0x50 ∨ (inst.opcode &&& 0xf0) = 0x60 then
    (if wrapI32 (wrapI32 i + inst.offset + 1) < 0 ∨
        wrapI32 (wrapI32 i + inst.offset + 1) ≥ wrapI32 len then false else true)
   else true)

/-- The indexed loop of `validate_solana_program` over the sequence,
carrying the enumeration index. -/
def checkInstrsFrom (len : Nat) : Nat → List BpfInstruction → Bool
  | _, [] => true
  | i, inst :: rest => instructionCheck len i inst && checkInstrsFrom len (i + 1) rest

/-- `SolanaBpf::validate_solana_program` of `solana_bpf.rs`: false on an
empty sequence; false when no opcode masked with `0xf7` equals `0x95`
(exit); false when the per-instruction loop rejects; false when the length
exceeds 16384; true otherwise. -/
def validate_solana_program (instructions : List BpfInstruction) : Bool :=
  if instructions.isEmpty then false
  else if !(instructions.any fun inst => (inst.opcode &&& 0xf7) == 0x95) then false
  else if !(checkInstrsFrom instructions.length 0 instructions) then false
  else if instructions.length > 16384 then false
  else true

theorem checkInstrsFrom_eq_true_iff (len : Nat) (l : List BpfInstruction) :
    ∀ i0, checkInstrsFrom len i0 l = true ↔
      ∀ j (h : j < l.length), instructionCheck len (i0 + j) (l.get ⟨j, h⟩) = true := by
  induction l with
  | nil =>
    intro i0
    simp [checkInstrsFrom]
  | cons a rest ih =>
    intro i0
    simp only [checkInstrsFrom, Bool.and_eq_true, ih (i0 + 1)]
    constructor
    · rintro ⟨ha, hrest⟩ j hj
      match j with
      | 0 => simpa using ha
      | j' + 1 =>
        have := hrest j' (by simpa using Nat.lt_of_succ_lt_succ hj)
        simpa [Nat.add_comm, Nat.add_assoc, Nat.add_left_comm] using this
    · intro hall
      refine ⟨by simpa using hall 0 (by simp), fun j hj => ?_⟩
      have := hall (j + 1) (by simpa using Nat.succ_lt_succ hj)
      simpa [Nat.add_comm, Nat.add_assoc, Nat.add_left_comm] using this

/-- C6 (amended): the jump-target boundary of the platform validator, with
"jump instruction" read as the source's own recognition mask - an opcode
whose high nibble is `0x50` or `0x60`.  (The mask matches none of the
catalog's real jump opcodes; that is the amendment the counterexample
forces.)  If such an instruction at index `i` has `i + offset + 1` equal to
the sequence length or negative, validation fails; a sequence that is
otherwise valid (non-empty, contains an exit, every per-instruction check
passes - in particular every masked instruction's target is inside
`[0, length)`, a target of `length - 1` included) and no longer than 16384
instructions passes. -/
theorem c6_jump_target_boundary (instrs : List BpfInstruction) :
    (∀ i : Fin instrs.length,
      ((instrs.get i).opcode &&& 0xf0 = 0x50 ∨ (instrs.get i).opcode &&& 0xf0 = 0x60) →
      -32768 ≤ (instrs.get i).offset → (instrs.get i).offset < 32768 →
      (((i : Nat) : Int) + (instrs.get i).offset + 1 = instrs.length ∨
        ((i : Nat) : Int) + (instrs.get i).offset + 1 < 0) →
      validate_solana_program instrs = false) ∧
    (instrs ≠ [] →
      (instrs.any fun inst => (inst.opcode &&& 0xf7) == 0x95) = true →
      (∀ i : Fin instrs.length,
        instructionCheck instrs.length i (instrs.get i) = true) →
      instrs.length ≤ 16384 →
      validate_solana_program instrs = true) := by
  constructor
  · rintro ⟨n, hn⟩ hmask ho1 ho2 htarget
    simp only at hmask ho1 ho2 htarget
    by_cases hlen : instrs.length ≤ 16384
    · have hcond : wrapI32 (wrapI32 (n : Int) + (instrs.get ⟨n, hn⟩).offset + 1) < 0 ∨
          wrapI32 (wrapI32 (n : Int) + (instrs.get ⟨n, hn⟩).offset + 1) ≥
            wrapI32 (instrs.length : Int) := by
        unfold wrapI32
        omega
      have hfail : instructionCheck instrs.length n (instrs.get ⟨n, hn⟩) = false := by
        simp only [instructionCheck]
        rw [if_pos hmask, if_pos hcond]
        simp
      unfold validate_solana_program
      split_ifs with e1 e2 e3 e4
      · rfl
      · rfl
      · rfl
      · rfl
      · exfalso
        have hc : checkInstrsFrom instrs.length 0 instrs = true := by
          simpa using e3
        have hj := (checkInstrsFrom_eq_true_iff instrs.length instrs 0).1 hc n hn
        rw [Nat.zero_add] at hj
        rw [hfail] at hj
        exact Bool.false_ne_true hj
    · unfold validate_solana_program
      split_ifs <;> first | rfl | omega
  · intro hne hexit hall hlen
    have h1 : instrs.isEmpty = false := by
      cases instrs with
      | nil => exact absurd rfl hne
      | cons a l => rfl
    have h3 : checkInstrsFrom instrs.length 0 instrs = true :=
      (checkInstrsFrom_eq_true_iff instrs.length instrs 0).2
        (fun j h => by simpa using hall ⟨j, h⟩)
    have h4 : ¬ instrs.length > 16384 := by omega
    simp [validate_solana_program, h1, hexit, h3, h4]

/-- Witness for C6: a two-instruction sequence whose first opcode `0x5f` is
recognized by the validator's mask with target `0 + 0 + 1 = 1 = length - 1`
passes. -/
theorem c6_jump_target_boundary_witness :
    validate_solana_program [⟨0x5f, 0, 0, 0, 0⟩, ⟨0x95, 0, 0, 0, 0⟩] = true :=
  (c6_jump_target_boundary [⟨0x5f, 0, 0, 0, 0⟩, ⟨0x95, 0, 0, 0, 0⟩]).2
    (by decide) (by decide) (by decide) (by decide)

/-- Counterexample to C6 as stated: an unconditional jump (`0x05`, a real
jump-class opcode the VM's run loop executes) at index 0 with offset 5 has
target 6, far outside the two-instruction sequence, yet the validator
accepts the sequence - its mask (`opcode & 0xf0` equal to `0x50`/`0x60`)
does not recognize `0x05` as a jump. -/
theorem c6_jump_target_boundary_counterexample :
    validate_solana_program [⟨0x05, 0, 0, 5, 0⟩, ⟨0x95, 0, 0, 0, 0⟩] = true := by
  decide

/-- A representative non-exit instruction (move-immediate `0xb7`, class 7,
registers 0): valid for every validator check. -/
def movInstr : BpfInstruction := ⟨0xb7, 0, 0, 0, 0⟩

/-- The exit instruction. -/
def exitInstr : BpfInstruction := ⟨0x95, 0, 0, 0, 0⟩

theorem isEmpty_append_singleton {α : Type} (l : List α) (a : α) :
    (l ++ [a]).isEmpty = false := by
  cases l <;> rfl

theorem any_replicate_movInstr (n : Nat) :
    (List.replicate n movInstr).any (fun inst => (inst.opcode &&& 0xf7) == 0x95) = false := by
  induction n with
  | zero => rfl
  | succ m ih => simp only [List.replicate_succ, List.any_cons, ih]; rfl

theorem hasExit_replicate (n : Nat) :
    ((List.replicate n movInstr ++ [exitInstr]).any
      fun inst => (inst.opcode &&& 0xf7) == 0x95) = true := by
  rw [List.any_append, any_replicate_movInstr]
  rfl

theorem instructionCheck_movInstr (len i : Nat) :
    instructionCheck len i movInstr = true := rfl

theorem instructionCheck_exitInstr (len i : Nat) :
    instructionCheck len i exitInstr = true := rfl

theorem checkInstrsFrom_replicate (len : Nat) (n : Nat) : ∀ i0,
    checkInstrsFrom len i0 (List.replicate n movInstr ++ [exitInstr]) = true := by
  induction n with
  | zero =>
    intro i0
    rfl
  | succ m ih =>
    intro i0
    rw [List.replicate_succ, List.cons_append]
    show (instructionCheck len i0 movInstr &&
      checkInstrsFrom len (i0 + 1) (List.replicate m movInstr ++ [exitInstr])) = true
    rw [instructionCheck_movInstr, ih (i0 + 1)]
    rfl

theorem length_replicate_append_singleton (n : Nat) :
    (List.replicate n movInstr ++ [exitInstr]).length = n + 1 := by
  rw [List.length_append, List.length_replicate]
  rfl

/-- C7 (amended): the size boundary of the platform validator sits at a
total length of 16384: a sequence of 16383 non-exit (otherwise valid)
instructions plus one exit instruction (16384 in total) passes
`validate_solana_program`, while 16384 non-exit instructions plus one exit
(16385 in total) fails it. -/
theorem c7_size_boundary :
    validate_solana_program (List.replicate 16383 movInstr ++ [exitInstr]) = true ∧
    validate_solana_program (List.replicate 16384 movInstr ++ [exitInstr]) = false := by
  constructor
  · simp only [validate_solana_program, isEmpty_append_singleton, hasExit_replicate,
      checkInstrsFrom_replicate, length_replicate_append_singleton]
    decide
  · simp only [validate_solana_program, isEmpty_append_singleton, hasExit_replicate,
      checkInstrsFrom_replicate, length_replicate_append_singleton]
    decide

/-- Counterexample to C7 as stated: 16384 non-exit instructions plus one
exit make 16385 instructions, which exceeds the validator's 16384-length
cap, so the sequence the claim says passes is in fact rejected. -/
theorem c7_size_boundary_counterexample :
    validate_solana_program (List.replicate 16384 movInstr ++ [exitInstr]) = false := by
  simp only [validate_solana_program, isEmpty_append_singleton, hasExit_replicate,
    checkInstrsFrom_replicate, length_replicate_append_singleton]
  decide

/-- The node tags of the external syntax tree (`parser.rs`, `NodeType`). -/
inductive NodeType where
  | Program
  | FunctionDecl
  | Block
  | Statement
  | Expression
  | Identifier
  | Literal
deriving DecidableEq, Repr

/-- A syntax-tree node (`parser.rs`, `Node`): a tag, an optional string
payload and an ordered list of children. -/
inductive Node where
  | mk (node_type : NodeType) (value : Option String) (children : List Node)

/-- The payload of a node. -/
def Node.value : Node → Option String
  | .mk _ v _ => v

/-- The code-generation error kinds (`codegen.rs`, `CodeGenError`); no arm
of the supported traversal raises one, but the contract exists. -/
inductive CodeGenError where
  | unsupportedNodeType (nt : NodeType)
  | functionNotFound (name : String)
  | invalidInstruction (msg : String)

/-- The mutable state of `CodeGen`: the accumulated instruction list and
the current-register cursor (starting at 1; `R0` is the return-value
register). -/
structure CGState where
  instructions : List BpfInstruction
  current_reg : Nat

/-- `CodeGen::new`. -/
def CodeGen.new : CGState := ⟨[], 1⟩

/-- `CodeGen::emit_instruction`: append one instruction. -/
def emit_instruction (st : CGState) (opcode dst src : Nat) (off imm : Int) : CGState :=
  { st with instructions := st.instructions ++ [⟨opcode, dst, src, off, imm⟩] }

/-- `CodeGen::emit_move_immediate`: `BPF_ALU64 | BPF_MOV | BPF_K = 0xb7`. -/
def emit_move_immediate (st : CGState) (dst : Nat) (imm : Int) : CGState :=
  emit_instruction st 0xb7 dst 0 0 imm

/-- `CodeGen::emit_call`: `BPF_JMP | BPF_CALL = 0x85` with the helper id as
the immediate. -/
def emit_call (st : CGState) (funcId : Int) : CGState :=
  emit_instruction st 0x85 0 0 0 funcId

/-- `CodeGen::emit_exit`: move the exit code into `R0`, then exit
(`BPF_JMP | BPF_EXIT = 0x95`). -/
def emit_exit (st : CGState) (exitCode : Int) : CGState :=
  emit_instruction (emit_move_immediate st 0 exitCode) 0x95 0 0 0 0

/-- The UTF-8 bytes of a string, as Rust `str::bytes` yields them. -/
def strBytes (s : String) : List Nat :=
  (s.data.bind String.utf8EncodeChar).map (fun b => b.toNat)

/-- The accumulation loop of `CodeGen::hash_function_name`: an `i32` with
release-mode wrapping, multiplied by 31 and added each byte. -/
def rawHash (name : String) : Int :=
  (strBytes name).foldl (fun h b => wrapI32 (h * 31 + (b : Int))) 0

/-- `CodeGen::hash_function_name`: fold the raw hash with `.abs() % 1000 +
100` - where `i32::abs` wraps on `i32::MIN` (release mode) and `%` is
Rust's truncating remainder. -/
def hash_function_name (name : String) : Int :=
  Int.tmod (if rawHash name = -2147483648 then rawHash name
            else ((rawHash name).natAbs : Int)) 1000 + 100

/-- `str::parse::<i32>` as the Literal arm uses it: optional sign, decimal
digits, rejected outside the `i32` range. -/
def parseI32 (s : String) : Option Int :=
  let core : Option (Int × List Char) :=
    match s.data with
    | [] => none
    | c :: rest =>
      if c = '-' then some (-1, rest)
      else if c = '+' then some (1, rest)
      else some (1, s.data)
  match core with
  | none => none
  | some (sign, digits) =>
    if digits = [] then none
    else if digits.all (fun c => c.isDigit) then
      let n : Int := digits.foldl (fun a c => a * 10 + ((c.toNat : Int) - 48)) 0
      let v := sign * n
      if -2147483648 ≤ v ∧ v < 2147483648 then some v else none
    else none

mutual

/-- `CodeGen::visit_node` of `codegen.rs` (with `generate_function` and
`generate_call` inlined at their only call sites): the depth-first
traversal, threading the generator state; every supported arm returns
`Ok`. -/
def visitNode (st : CGState) (n : Node) : Except CodeGenError CGState :=
  match n with
  | .mk nt v children =>
    match nt with
    | .Program => visitList st children
    | .FunctionDecl =>
      match h : children.getLast? with
      | some body => visitNode st body
      | none => .ok st
    | .Block => visitList st children
    | .Statement =>
      match v with
      | some sv =>
        if sv = "return" then
          match children with
          | [] => .ok (emit_exit st 0)
          | c :: _ =>
            match visitNode st c with
            | .ok st2 => .ok (emit_exit st2 0)
            | .error e => .error e
        else visitList st children
      | none => visitList st children
    | .Expression =>
      match v with
      | some sv =>
        if sv = "call" then
          match children with
          | [] => .ok st
          | callee :: args =>
            match callee.value with
            | some name =>
              if name = "PrintF" then
                match visitArgs st 0 args with
                | .ok st2 => .ok (emit_call st2 6)
                | .error e => .error e
              else .ok (emit_call st (hash_function_name name))
            | none => .ok st
        else visitList st children
      | none => visitList st children
    | .Identifier => .ok st
    | .Literal =>
      match v with
      | some sv =>
        match parseI32 sv with
        | some num => .ok (emit_move_immediate st st.current_reg num)
        | none => .ok st
      | none => .ok st
termination_by sizeOf n
decreasing_by
  all_goals simp_wf
  all_goals first
    | omega
    | (have hlt := List.sizeOf_lt_of_mem (List.mem_of_getLast?_eq_some h); omega)
    | (simp; omega)

/-- Child-list traversal (the `for child in children` loops). -/
def visitList (st : CGState) (ns : List Node) : Except CodeGenError CGState :=
  match ns with
  | [] => .ok st
  | n :: rest =>
    match visitNode st n with
    | .ok st2 => visitList st2 rest
    | .error e => .error e
termination_by sizeOf ns

/-- The `PrintF` argument loop of `generate_call`: argument `i` (zero
based, only the first five) is materialized into register `i + 1` by
pointing the current-register cursor there and visiting the subtree. -/
def visitArgs (st : CGState) (i : Nat) (ns : List Node) : Except CodeGenError CGState :=
  match ns with
  | [] => .ok st
  | a :: rest =>
    if i < 5 then
      match visitNode { st with current_reg := i + 1 } a with
      | .ok st2 => visitArgs st2 (i + 1) rest
      | .error e => .error e
    else visitArgs st i rest
termination_by sizeOf ns

end

/-- `CodeGen::generate` on a fresh generator: visit the root, then append
the unconditional exit sequence and return the accumulated instructions. -/
def CodeGen.generate (ast : Node) : Except CodeGenError (List BpfInstruction) :=
  match visitNode CodeGen.new ast with
  | .ok st => .ok (emit_exit st 0).instructions
  | .error e => .error e

theorem sizeOf_node_pos (n : Node) : 0 < sizeOf n := by
  cases n
  simp only [Node.mk.sizeOf_spec]
  omega

theorem visit_total (k : Nat) :
    (∀ st n, sizeOf n ≤ k → ∃ st2, visitNode st n = .ok st2) ∧
    (∀ st ns, sizeOf ns ≤ k → ∃ st2, visitList st ns = .ok st2) ∧
    (∀ st i ns, sizeOf ns ≤ k → ∃ st2, visitArgs st i ns = .ok st2) := by
  induction k with
  | zero =>
    refine ⟨?_, ?_, ?_⟩
    · intro st n hs
      exact absurd hs (by have := sizeOf_node_pos n; omega)
    · intro st ns hs
      exact absurd hs (by cases ns <;> simp <;> omega)
    · intro st i ns hs
      exact absurd hs (by cases ns <;> simp <;> omega)
  | succ m ih =>
    obtain ⟨ihN, ihL, ihA⟩ := ih
    refine ⟨?_, ?_, ?_⟩
    · intro st n hs
      obtain ⟨nt, v, children⟩ := n
      simp only [Node.mk.sizeOf_spec] at hs
      have hch : sizeOf children ≤ m := by omega
      cases nt with
      | Program =>
        simpa only [visitNode] using ihL st children hch
      | Block =>
        simpa only [visitNode] using ihL st children hch
      | FunctionDecl =>
        cases hl : children.getLast? with
        | none =>
          refine ⟨st, ?_⟩
          rw [visitNode.eq_def]
          simp only
          split
          · rename_i body heq
            rw [hl] at heq
            cases heq
          · rfl
        | some body =>
          have hmem := List.sizeOf_lt_of_mem (List.mem_of_getLast?_eq_some hl)
          obtain ⟨st2, h2⟩ := ihN st body (by omega)
          refine ⟨st2, ?_⟩
          rw [visitNode.eq_def]
          simp only
          split
          · rename_i b heq
            rw [hl] at heq
            injection heq with e
            subst e
            exact h2
          · rename_i heq
            rw [hl] at heq
            cases heq
      | Statement =>
        cases v with
        | none => simpa only [visitNode] using ihL st children hch
        | some sv =>
          by_cases hret : sv = "return"
          · cases children with
            | nil =>
              refine ⟨emit_exit st 0, ?_⟩
              rw [visitNode.eq_def]
              simp only
              rw [if_pos hret]
            | cons c rest =>
              simp only [List.cons.sizeOf_spec] at hs
              obtain ⟨st2, h2⟩ := ihN st c (by omega)
              refine ⟨emit_exit st2 0, ?_⟩
              rw [visitNode.eq_def]
              simp only
              rw [if_pos hret, h2]
          · obtain ⟨st3, h3⟩ := ihL st children hch
            refine ⟨st3, ?_⟩
            rw [visitNode.eq_def]
            simp only
            rw [if_neg hret]
            exact h3
      | Expression =>
        cases v with
        | none => simpa only [visitNode] using ihL st children hch
        | some sv =>
          by_cases hcall : sv = "call"
          · cases children with
            | nil =>
              refine ⟨st, ?_⟩
              rw [visitNode.eq_def]
              simp only
              rw [if_pos hcall]
            | cons callee args =>
              simp only [List.cons.sizeOf_spec] at hs
              cases hv : callee.value with
              | none =>
                refine ⟨st, ?_⟩
                rw [visitNode.eq_def]
                simp only
                rw [if_pos hcall, hv]
              | some name =>
                by_cases hpf : name = "PrintF"
                · obtain ⟨st2, h2⟩ := ihA st 0 args (by omega)
                  refine ⟨emit_call st2 6, ?_⟩
                  rw [visitNode.eq_def]
                  simp only
                  rw [if_pos hcall, hv]
                  simp only
                  rw [if_pos hpf, h2]
                · refine ⟨emit_call st (hash_function_name name), ?_⟩
                  rw [visitNode.eq_def]
                  simp only
                  rw [if_pos hcall, hv]
                  simp only
                  rw [if_neg hpf]
          · obtain ⟨st3, h3⟩ := ihL st children hch
            refine ⟨st3, ?_⟩
            rw [visitNode.eq_def]
            simp only
            rw [if_neg hcall]
            exact h3
      | Identifier => exact ⟨st, by simp [visitNode]⟩
      | Literal =>
        cases v with
        | none => exact ⟨st, by simp [visitNode]⟩
        | some sv =>
          cases hp : parseI32 sv with
          | none =>
            refine ⟨st, ?_⟩
            rw [visitNode.eq_def]
            simp only
            rw [hp]
          | some num =>
            refine ⟨emit_move_immediate st st.current_reg num, ?_⟩
            rw [visitNode.eq_def]
            simp only
            rw [hp]
    · intro st ns hs
      cases ns with
      | nil => exact ⟨st, by simp [visitList]⟩
      | cons n rest =>
        simp only [List.cons.sizeOf_spec] at hs
        obtain ⟨st2, h2⟩ := ihN st n (by omega)
        obtain ⟨st3, h3⟩ := ihL st2 rest (by omega)
        exact ⟨st3, by simp [visitList, h2, h3]⟩
    · intro st i ns hs
      cases ns with
      | nil => exact ⟨st, by simp [visitArgs]⟩
      | cons a rest =>
        simp only [List.cons.sizeOf_spec] at hs
        by_cases hi : i < 5
        · obtain ⟨st2, h2⟩ := ihN { st with current_reg := i + 1 } a (by omega)
          obtain ⟨st3, h3⟩ := ihA st2 (i + 1) rest (by omega)
          exact ⟨st3, by simp [visitArgs, hi, h2, h3]⟩
        · obtain ⟨st3, h3⟩ := ihA st i rest (by omega)
          exact ⟨st3, by simp [visitArgs, hi, h3]⟩

/-- C5: generator totality and the exit tail.  For every syntax tree,
`CodeGen::generate` returns `Ok`, and the returned instruction sequence
ends in the exit instruction `0x95` immediately preceded by a
move-immediate of 0 into `R0` - so in particular it is non-empty. -/
theorem c5_generator_totality_exit_tail (ast : Node) :
    ∃ pre, CodeGen.generate ast =
      .ok (pre ++ [⟨0xb7, 0, 0, 0, 0⟩, ⟨0x95, 0, 0, 0, 0⟩]) := by
  obtain ⟨st2, h2⟩ := (visit_total (sizeOf ast)).1 CodeGen.new ast le_rfl
  refine ⟨st2.instructions, ?_⟩
  simp [CodeGen.generate, h2, emit_exit, emit_move_immediate, emit_instruction]

/-- C9 (amended): pseudo-linking hash.  For every call expression whose
callee is not the print builtin, the generator emits exactly one call
instruction (`0x85`) whose immediate is `hash_function_name` of the callee
name; and for every callee name whose raw wrapping polynomial hash is not
`i32::MIN`, that immediate lies in `[100, 1099]`.  (The `i32::MIN`
exclusion is the amendment the counterexample forces: `.abs()` wraps
there and the folded value escapes the range.) -/
theorem c9_call_hash_linking :
    (∀ name : String, rawHash name ≠ -2147483648 →
      100 ≤ hash_function_name name ∧ hash_function_name name ≤ 1099) ∧
    (∀ (st : CGState) (name : String) (cnt : NodeType) (cch : List Node)
        (args : List Node), name ≠ "PrintF" →
      visitNode st (.mk .Expression (some "call") (.mk cnt (some name) cch :: args)) =
        .ok (emit_call st (hash_function_name name))) := by
  constructor
  · intro name hne
    unfold hash_function_name
    rw [if_neg hne]
    rw [Int.tmod_eq_emod (Int.natCast_nonneg _) (by norm_num)]
    omega
  · intro st name cnt cch args hpf
    rw [visitNode.eq_def]
    simp only [Node.value]
    rw [if_pos trivial, if_neg hpf]

/-- Witness for C9update: the callee name "foo" hashes into the range and the
generator emits the single call instruction for it. -/
theorem c9_call_hash_linking_witness :
    (100 ≤ hash_function_name "foo" ∧ hash_function_name "foo" ≤ 1099) ∧
    visitNode CodeGen.new (.mk .Expression (some "call")
        [.mk .Identifier (some "foo") []]) =
      .ok (emit_call CodeGen.new (hash_function_name "foo")) :=
  ⟨c9_call_hash_linking.1 "foo" (by decide),
   c9_call_hash_linking.2 CodeGen.new "foo" .Identifier [] [] (by decide)⟩

/-- Counterexample to C9 as stated: the callee name "xfjfxtf" has raw
wrapping hash exactly `i32::MIN`; release-mode `.abs()` returns `i32::MIN`
unchanged and the folded immediate is `-548`, outside `[100, 1099]` (in a
debug build the same input panics in `.abs()`). -/
theorem c9_call_hash_linking_counterexample :
    hash_function_name "xfjfxtf" = -548 ∧
    visitNode CodeGen.new (.mk .Expression (some "call")
        [.mk .Identifier (some "xfjfxtf") []]) =
      .ok ⟨[⟨0x85, 0, 0, 0, -548⟩], 1⟩ := by
  refine ⟨by decide, ?_⟩
  rw [visitNode.eq_def]
  simp only [Node.value]
  rw [if_pos trivial, if_neg (by decide : ¬("xfjfxtf" : String) = "PrintF")]
  rw [show hash_function_name "xfjfxtf" = -548 from by decide]
  rfl
